import Mathlib

/-!
Verification development for the Roll20 trap system (`TrapSystem.js`).

The source is a single JavaScript file driving a tabletop-game host.  The
shallow embedding below models:

* gm-note texts as `List Char`, with the specific regular-expression
  searches and first-occurrence replacements the source performs written
  out as deterministic scanners (each source pattern is simple enough that
  greedy matching coincides with backtracking regex semantics);
* the host object model (graphics, characters, players) and the script's
  session state (lock registry, pending skill checks, safe-move set) as
  association lists keyed by id strings;
* JavaScript numbers as exact integers and rationals (`Int`/`ℚ`); the
  geometry routines compare squared distances where the source compares
  `Math.sqrt` results, which is equivalent for nonnegative radicands;
* `decodeURIComponent` as the identity (it is the identity on every text
  without a percent sign, which covers all texts considered here).

Side effects that the specification excludes as presentation (chat menus,
auras, token bars, logging) are dropped or summarised as abstract actions.
-/

namespace TrapSim

/-- Note texts are character lists; `str` converts a literal. -/
abbrev Str := List Char

def str (s : String) : Str := s.data

/-- JavaScript `\s` (the whitespace characters relevant to these notes). -/
def isWs (c : Char) : Bool :=
  c.toNat = 32 || c.toNat = 9 || c.toNat = 10 || c.toNat = 13 || c.toNat = 11 || c.toNat = 12

/-- JavaScript `\d`. -/
def isDigitC (c : Char) : Bool := 48 ≤ c.toNat && c.toNat ≤ 57

/-- JavaScript `\w`. -/
def isWordC (c : Char) : Bool :=
  isDigitC c || (97 ≤ c.toNat && c.toNat ≤ 122) || (65 ≤ c.toNat && c.toNat ≤ 90) || c = '_'

def lowerS (s : Str) : Str := s.map Char.toLower

/-- Drop a literal from the head of `s` (case sensitive). -/
def stripLit : Str → Str → Option Str
  | [], s => some s
  | _ :: _, [] => none
  | c :: p, d :: s => if c = d then stripLit p s else none

/-- Drop a literal from the head of `s`, comparing case-insensitively
(for the source's `/i` patterns). -/
def stripLitCI : Str → Str → Option Str
  | [], s => some s
  | _ :: _, [] => none
  | c :: p, d :: s => if c.toLower = d.toLower then stripLitCI p s else none

/-- `String.prototype.includes` for a fixed pattern. -/
def hasSub (pat : Str) : Str → Bool
  | [] => pat.isEmpty
  | c :: s => pat.isPrefixOf (c :: s) || hasSub pat s

def endsWith (pat s : Str) : Bool := pat.reverse.isPrefixOf s.reverse

def dropSuffix (n : Nat) (s : Str) : Str := (s.reverse.drop n).reverse

def dropTrailingWs (s : Str) : Str := (s.reverse.dropWhile isWs).reverse

/-- `String.prototype.trim`. -/
def trimS (s : Str) : Str := dropTrailingWs (s.dropWhile isWs)

/-- `String.prototype.split` on a single separator character. -/
def splitOn (sep : Char) : Str → List Str
  | [] => [[]]
  | c :: s =>
    if c = sep then [] :: splitOn sep s
    else
      match splitOn sep s with
      | h :: t => (c :: h) :: t
      | [] => [[c]]

/-- Scan a text left to right, trying a deterministic pattern matcher at
every position: the regex leftmost-match rule.  On success it returns the
text before the match, the payload, and the text after the match. -/
def scanFor (m : Str → Option (α × Str)) : Str → Option (Str × α × Str)
  | [] =>
    match m [] with
    | some (a, rest) => some ([], a, rest)
    | none => none
  | c :: s =>
    match m (c :: s) with
    | some (a, rest) => some ([], a, rest)
    | none =>
      match scanFor m s with
      | some (pre, a, rest) => some (c :: pre, a, rest)
      | none => none

/-- The payload of the first match of a pattern, as `text.match(re)` reads it. -/
def firstMatch (m : Str → Option (α × Str)) (s : Str) : Option α :=
  match scanFor m s with
  | some (_, a, _) => a
  | none => none

/-- `text.replace(re, repl)` for a non-global pattern: rewrite the first
match, keep the text unchanged when there is none. -/
def replaceFirst (m : Str → Option (α × Str)) (repl : α → Str) (s : Str) : Str :=
  match scanFor m s with
  | some (pre, a, rest) => pre ++ repl a ++ rest
  | none => s

/-- `text.replace(/pat/g, repl)` for a literal pattern: non-overlapping
replacement left to right.  Fuelled by the text length (each step consumes
at least one character for the nonempty patterns used here). -/
def replaceAllAux (pat repl : Str) : Nat → Str → Str
  | 0, s => s
  | _, [] => []
  | Nat.succ f, c :: s =>
    if pat.isPrefixOf (c :: s) then repl ++ replaceAllAux pat repl f ((c :: s).drop pat.length)
    else c :: replaceAllAux pat repl f s

def replaceAll (pat repl s : Str) : Str := replaceAllAux pat repl s.length s

/-- All matches of a pattern, as `text.match(/re/g)` collects them:
after a match the scan continues right after it.  Fuelled by the text
length (every pattern used here consumes at least one character). -/
def allMatchesAux (m : Str → Option (α × Str)) : Nat → Str → List α
  | 0, _ => []
  | _, [] => []
  | Nat.succ f, c :: s =>
    match m (c :: s) with
    | some (a, rest) => a :: allMatchesAux m f rest
    | none => allMatchesAux m f s

def allMatches (m : Str → Option (α × Str)) (s : Str) : List α := allMatchesAux m s.length s

/-- The character of one decimal digit. -/
def digitChar : Nat → Char
  | 0 => '0' | 1 => '1' | 2 => '2' | 3 => '3' | 4 => '4'
  | 5 => '5' | 6 => '6' | 7 => '7' | 8 => '8' | _ => '9'

/-- Decimal digits of a natural number, most significant first (the
rendering of a nonnegative integer in a template literal).  Fuelled
structural recursion. -/
def natStrAux : Nat → Nat → Str
  | 0, _ => []
  | Nat.succ f, n =>
    if n = 0 then [] else natStrAux f (n / 10) ++ [digitChar (n % 10)]

def natStr (n : Nat) : Str := if n = 0 then ['0'] else natStrAux n n

/-- `${n}` for an integer. -/
def intStr : Int → Str
  | Int.ofNat m => natStr m
  | Int.negSucc m => '-' :: natStr (m + 1)

/-- Value of a digit string, as `parseInt` reads an all-digit capture. -/
def digitsVal (ds : Str) : Nat := ds.foldl (fun a c => 10 * a + (c.toNat - 48)) 0

/-- JavaScript `parseInt(s, 10)`: skip leading whitespace, optional sign,
then a maximal digit run; `none` when there is no digit (`NaN`). -/
def parseIntJS (s : Str) : Option Int :=
  let t := s.dropWhile isWs
  match t with
  | '-' :: r =>
    let ds := r.takeWhile isDigitC
    if ds.isEmpty then none else some (-(digitsVal ds : Int))
  | '+' :: r =>
    let ds := r.takeWhile isDigitC
    if ds.isEmpty then none else some (digitsVal ds : Int)
  | _ =>
    let ds := t.takeWhile isDigitC
    if ds.isEmpty then none else some (digitsVal ds : Int)

/-! ### The trap-descriptor grammar (`parseTrapNotes`, TrapSystem.js:298-412)

Each `match…` definition embeds one of the regular expressions of the
source, as a deterministic matcher applied at one position; `scanFor`
turns it into the leftmost-match search of `String.prototype.match`. -/

/-- `/uses:\s*(\d+)\/(\d+)/` — payload is the two captured numbers. -/
def matchUsesPat (s : Str) : Option ((Nat × Nat) × Str) :=
  match stripLit (str "uses:") s with
  | none => none
  | some s1 =>
    let s2 := s1.dropWhile isWs
    let ds := s2.takeWhile isDigitC
    if ds.isEmpty then none else
    match stripLit (str "/") (s2.dropWhile isDigitC) with
    | none => none
    | some s4 =>
      let es := s4.takeWhile isDigitC
      if es.isEmpty then none else
      some ((digitsVal ds, digitsVal es), s4.dropWhile isDigitC)

/-- `/armed:\s*(on|off)/i` — payload is the armed flag. -/
def matchArmedPat (s : Str) : Option (Bool × Str) :=
  match stripLitCI (str "armed:") s with
  | none => none
  | some s1 =>
    let s2 := s1.dropWhile isWs
    match stripLitCI (str "on") s2 with
    | some rest => some (true, rest)
    | none =>
      match stripLitCI (str "off") s2 with
      | some rest => some (false, rest)
      | none => none

/-- `/primary:\s*Name:\s*"([^"]+)"\s*Macro:\s*([^\s\]]+)/`. -/
def matchPrimaryPat (s : Str) : Option ((Str × Str) × Str) :=
  match stripLit (str "primary:") s with
  | none => none
  | some s1 =>
    match stripLit (str "Name:") (s1.dropWhile isWs) with
    | none => none
    | some s2 =>
      match stripLit (str "\"") (s2.dropWhile isWs) with
      | none => none
      | some s3 =>
        let nm := s3.takeWhile (fun c => c ≠ '"')
        if nm.isEmpty then none else
        match stripLit (str "\"") (s3.dropWhile (fun c => c ≠ '"')) with
        | none => none
        | some s4 =>
          match stripLit (str "Macro:") (s4.dropWhile isWs) with
          | none => none
          | some s5 =>
            let s6 := s5.dropWhile isWs
            let mc := s6.takeWhile (fun c => !isWs c && c ≠ ']')
            if mc.isEmpty then none else
            some ((nm, mc), s6.dropWhile (fun c => !isWs c && c ≠ ']'))

/-- `/Name:\s*"([^"]+)"\s*Macro:\s*([^\s]+)/` — the option-list entry. -/
def matchNameMacroPat (s : Str) : Option ((Str × Str) × Str) :=
  match stripLit (str "Name:") s with
  | none => none
  | some s1 =>
    match stripLit (str "\"") (s1.dropWhile isWs) with
    | none => none
    | some s2 =>
      let nm := s2.takeWhile (fun c => c ≠ '"')
      if nm.isEmpty then none else
      match stripLit (str "\"") (s2.dropWhile (fun c => c ≠ '"')) with
      | none => none
      | some s3 =>
        match stripLit (str "Macro:") (s3.dropWhile isWs) with
        | none => none
        | some s4 =>
          let s5 := s4.dropWhile isWs
          let mc := s5.takeWhile (fun c => !isWs c)
          if mc.isEmpty then none else
          some ((nm, mc), s5.dropWhile (fun c => !isWs c))

/-- `/options:\s*\[([^\]]+)\]/`, whose capture is then scanned globally
with the `Name/Macro` pattern (TrapSystem.js:340-348). -/
def matchOptionsPat (s : Str) : Option (List (Str × Str) × Str) :=
  match stripLit (str "options:") s with
  | none => none
  | some s1 =>
    match stripLit (str "[") (s1.dropWhile isWs) with
    | none => none
    | some s2 =>
      let inner := s2.takeWhile (fun c => c ≠ ']')
      if inner.isEmpty then none else
      match stripLit (str "]") (s2.dropWhile (fun c => c ≠ ']')) with
      | none => none
      | some rest => some (allMatches matchNameMacroPat inner, rest)

/-- `/position:\s*(?:center|\(\s*(\d+)\s*,\s*(\d+)\s*\))/i` — payload is
the matched text (the source then asks `posM[0].includes('center')`,
case-sensitively) and the optional coordinate captures. -/
def matchPositionPat (s : Str) : Option ((Str × Option (Nat × Nat)) × Str) :=
  match stripLitCI (str "position:") s with
  | none => none
  | some s1 =>
    let s2 := s1.dropWhile isWs
    match stripLitCI (str "center") s2 with
    | some rest =>
      some ((s.take (s.length - rest.length), none), rest)
    | none =>
      match stripLit (str "(") s2 with
      | none => none
      | some s3 =>
        let xs := (s3.dropWhile isWs).takeWhile isDigitC
        if xs.isEmpty then none else
        match stripLit (str ",") (((s3.dropWhile isWs).dropWhile isDigitC).dropWhile isWs) with
        | none => none
        | some s4 =>
          let ys := (s4.dropWhile isWs).takeWhile isDigitC
          if ys.isEmpty then none else
          match stripLit (str ")") (((s4.dropWhile isWs).dropWhile isDigitC).dropWhile isWs) with
          | none => none
          | some rest =>
            some ((s.take (s.length - rest.length), some (digitsVal xs, digitsVal ys)), rest)

/-- `/type:\s*(\w+)/i` — payload is the captured word. -/
def matchTypePat (s : Str) : Option (Str × Str) :=
  match stripLitCI (str "type:") s with
  | none => none
  | some s1 =>
    let s2 := s1.dropWhile isWs
    let w := s2.takeWhile isWordC
    if w.isEmpty then none else some (w, s2.dropWhile isWordC)

/-- `/checks:\s*"([^"]+)"/` — payload is the quoted capture. -/
def matchChecksPat (s : Str) : Option (Str × Str) :=
  match stripLit (str "checks:") s with
  | none => none
  | some s1 =>
    match stripLit (str "\"") (s1.dropWhile isWs) with
    | none => none
    | some s2 =>
      let inner := s2.takeWhile (fun c => c ≠ '"')
      if inner.isEmpty then none else
      match stripLit (str "\"") (s2.dropWhile (fun c => c ≠ '"')) with
      | none => none
      | some rest => some (inner, rest)

/-- `/success:\s*(\w+)/` (case sensitive in the source). -/
def matchSuccessPat (s : Str) : Option (Str × Str) :=
  match stripLit (str "success:") s with
  | none => none
  | some s1 =>
    let s2 := s1.dropWhile isWs
    let w := s2.takeWhile isWordC
    if w.isEmpty then none else some (w, s2.dropWhile isWordC)

/-- `/failure:\s*(\w+)/`. -/
def matchFailurePat (s : Str) : Option (Str × Str) :=
  match stripLit (str "failure:") s with
  | none => none
  | some s1 =>
    let s2 := s1.dropWhile isWs
    let w := s2.takeWhile isWordC
    if w.isEmpty then none else some (w, s2.dropWhile isWordC)

/-- `/\{!traplocked[^}]*\}/` — the lock tag on a held token. -/
def matchLockTagPat (s : Str) : Option (Unit × Str) :=
  match stripLit (str "\x7b!traplocked") s with
  | none => none
  | some s1 =>
    match stripLit (str "\x7d") (s1.dropWhile (fun c => c ≠ '}')) with
    | none => none
    | some rest => some ((), rest)

/-- The five entity replacements of `parseTrapNotes` (TrapSystem.js:308-313),
applied in source order. -/
def entityDecode (s : Str) : Str :=
  replaceAll (str "&#39;") ['\''] <|
  replaceAll (str "&quot;") (str "\"") <|
  replaceAll (str "&gt;") (str ">") <|
  replaceAll (str "&lt;") (str "<") <|
  replaceAll (str "&amp;") (str "&") s

/-- One parsed check entry: a skill label and a DC.  `dc = none` models the
`NaN` a non-numeric DC text produces. -/
structure CheckSpec where
  type : Str
  dc : Option Int
deriving Repr, DecidableEq

/-- A named action reference (display name and macro name). -/
structure ActionRef where
  name : Str
  macroName : Str
deriving Repr, DecidableEq

inductive TrapPos where
  | center
  | cell (x y : Nat)
deriving Repr, DecidableEq

/-- The descriptor `parseTrapNotes` returns (TrapSystem.js:404-411). -/
structure TrapData where
  currentUses : Int
  maxUses : Int
  isArmed : Bool
  primary : ActionRef
  options : List ActionRef
  position : Option TrapPos
  type : Str
  checks : List CheckSpec
  success : Option Str
  failure : Option Str
  movementTriggerEnabled : Bool
deriving Repr, DecidableEq

/-- TrapSystem.js:368-377: split the checks capture on commas, each entry
on its colon, trim, and keep entries whose skill and dc texts are
nonempty; the dc is `parseInt` of its text. -/
def parseChecksList (inner : Str) : List CheckSpec :=
  (splitOn ',' inner).foldr
    (fun ch acc =>
      let parts := (splitOn ':' ch).map trimS
      let skill := parts.headD []
      let dcs := parts.drop 1 |>.headD []
      if !skill.isEmpty && !dcs.isEmpty then ⟨skill, parseIntJS dcs⟩ :: acc else acc) []

/-- `parseTrapNotes` (TrapSystem.js:298-412), the pure parsing part: the
URI decode is modelled as the identity and the aura synchronisation side
effect on a supplied token is dropped (presentation). -/
def parseTrapNotes (notes : Str) : Option TrapData :=
  if notes.isEmpty then none else
  let decoded := entityDecode notes
  if !hasSub (str "!traptrigger") decoded then none else
  let uses := (firstMatch matchUsesPat decoded).getD (0, 0)
  let isArmed := (firstMatch matchArmedPat decoded).getD true
  let prim := (firstMatch matchPrimaryPat decoded).getD (str "Primary", [])
  let opts := ((firstMatch matchOptionsPat decoded).getD []).map fun p => ActionRef.mk p.1 p.2
  let pos :=
    match firstMatch matchPositionPat decoded with
    | none => none
    | some (matched, xy) =>
      if hasSub (str "center") matched then some TrapPos.center
      else match xy with
        | some (x, y) => some (TrapPos.cell x y)
        | none => none
  let ty := lowerS ((firstMatch matchTypePat decoded).getD (str "standard"))
  let checks := match firstMatch matchChecksPat decoded with
    | some inner => parseChecksList (trimS inner)
    | none => []
  some {
    currentUses := (uses.1 : Int)
    maxUses := (uses.2 : Int)
    isArmed := isArmed
    primary := ⟨prim.1, prim.2⟩
    options := opts
    position := pos
    type := ty
    checks := checks
    success := firstMatch matchSuccessPat decoded
    failure := firstMatch matchFailurePat decoded
    movementTriggerEnabled := !hasSub (str "\x7bnoMovementTrigger\x7d") decoded }

/-- The gm-note rewrite of `updateTrapUses` (TrapSystem.js:423-444): rewrite
the first `uses:` occurrence; when an armed state is supplied, rewrite the
first `armed:` occurrence if the text contains `armed:`, otherwise insert
the field before a final closing brace (`/\}$/`). -/
def updateTrapUsesNotes (notes : Str) (current maxU : Int) (newArmed : Option Bool) : Str :=
  let updated :=
    replaceFirst matchUsesPat
      (fun _ => str "uses: " ++ intStr current ++ str "/" ++ intStr maxU) notes
  match newArmed with
  | none => updated
  | some b =>
    let armedState := if b then str "on" else str "off"
    if hasSub (str "armed:") updated then
      replaceFirst matchArmedPat (fun _ => str "armed: " ++ armedState) updated
    else if updated.getLast? = some '}' then
      updated.dropLast ++ str " armed: " ++ armedState ++ str "\x7d"
    else updated

/-! ### Host object model and session state

Roll20 objects (graphics, characters, players) keyed by id, and the
script's `TrapSystem.state`.  Objects and maps are association lists; the
access helpers below reproduce JavaScript object semantics (lookup of the
first binding, in-place overwrite, full deletion of a key). -/

structure Graphic where
  left : ℚ
  top : ℚ
  width : ℚ
  height : ℚ
  gmnotes : Str
deriving Repr, DecidableEq

/-- A character; `controlledby` is the comma-split control list. -/
structure CharacterObj where
  controlledby : List String
deriving Repr, DecidableEq

structure PlayerObj where
  online : Bool
  isGM : Bool
deriving Repr, DecidableEq

/-- One entry of `TrapSystem.state.lockedTokens` (TrapSystem.js:886-891):
the trap id, whether an effect ran while held, and the descriptor
snapshot taken at trigger time. -/
structure LockRecord where
  trapToken : String
  macroTriggered : Bool
  trapData : TrapData
deriving Repr, DecidableEq

/-- The `checkIndex` a pending check carries: a numeric index into the
trap's checks, or the marker `"custom"`. -/
inductive ChkIdx where
  | num (n : Nat)
  | custom
deriving Repr, DecidableEq

/-- One entry of `pendingChecks` / `pendingChecksByChar`
(TrapSystem.js:1526-1538, 1687-1699).  The source stores the token object;
here its id indexes the graphics store.  `advantage = none` is the null
of a freshly created check. -/
structure PendingCheck where
  tokenId : String
  checkIndex : ChkIdx
  config : TrapData
  advantage : Option String
  firstRoll : Option Int
  playerid : String
  characterId : Option String
  characterName : Option String
deriving Repr, DecidableEq

structure SysState where
  graphics : List (String × Graphic)
  characters : List (String × CharacterObj)
  players : List (String × PlayerObj)
  lockedTokens : List (String × LockRecord)
  safeMoveTokens : List String
  triggersEnabled : Bool
  pendingChecks : List (String × PendingCheck)
  pendingChecksByChar : List (String × PendingCheck)
  displayDCForCheck : List (String × Bool)
deriving Repr, DecidableEq

def getKey (k : String) : List (String × α) → Option α
  | [] => none
  | (k', v) :: t => if k' = k then some v else getKey k t

def putKey (k : String) (v : α) : List (String × α) → List (String × α)
  | [] => [(k, v)]
  | (k', v') :: t => if k' = k then (k, v) :: t else (k', v') :: putKey k v t

def delKey (k : String) (l : List (String × α)) : List (String × α) :=
  l.filter (fun p => p.1 ≠ k)

/-- `playerIsGM` (TrapSystem.js:20-24): the player object must exist, be
online and flagged GM. -/
def playerIsGM (s : SysState) (pid : String) : Bool :=
  match getKey pid s.players with
  | some p => p.online && p.isGM
  | none => false

/-- `updateTrapUses` (TrapSystem.js:415-472) on a graphic: with empty
notes the source logs and returns; otherwise the note text is rewritten.
Bar and aura updates are presentation and dropped. -/
def updateTrapUsesG (g : Graphic) (current maxU : Int) (newArmed : Option Bool) : Graphic :=
  if g.gmnotes.isEmpty then g
  else { g with gmnotes := updateTrapUsesNotes g.gmnotes current maxU newArmed }

/-- `updateTokenLockState` (TrapSystem.js:520-537): set or clear the
`traplocked` tag in a held token's notes. -/
def setLockTag (notes : Str) (trapId : String) (locked : Bool) : Str :=
  if locked then
    let tag := str "\x7b!traplocked trap: " ++ str trapId ++ str "\x7d"
    if hasSub (str "!traplocked") notes then replaceFirst matchLockTagPat (fun _ => tag) notes
    else notes ++ tag
  else replaceFirst matchLockTagPat (fun _ => []) notes

/-- The uses/armed pair the trigger/resolution decrement writes back
(the shared shape of TrapSystem.js:1267-1273, 1388-1394, 1421-1427,
1935-1942 and 1992-1999): `newUses = max(0, uses - 1)`; at zero the text
gets `(0, armed: off)`, otherwise `(newUses, armed: on)`. -/
def triggerWriteback (c : Int) : Int × Bool :=
  let n := max 0 (c - 1)
  if n ≤ 0 then (0, false) else (n, true)

/-- The uses/armed pair `toggleTrap` writes (TrapSystem.js:1024-1035):
flip the armed flag; arming with no uses restores one use. -/
def toggleWriteback (d : TrapData) : Int × Bool :=
  let newArmed := !d.isArmed
  ((if newArmed && d.currentUses ≤ 0 then 1 else d.currentUses), newArmed)

/-- The net uses/armed effect of the release decrement
(TrapSystem.js:928-939): the snapshot's uses minus one, written as is when
positive (armed field untouched, `none`), and as `(0, armed: off)` when
depleted. -/
def releaseWriteback (c : Int) : Int × Option Bool :=
  if c - 1 ≤ 0 then (0, some false) else (c - 1, none)

/-- `toggleTrap` (TrapSystem.js:1013-1055), state part: parse the trap,
flip armed (restoring one use when arming at zero) and write back.  Menus
and auras are dropped. -/
def toggleTrap (s : SysState) (tokenId : String) : SysState :=
  match getKey tokenId s.graphics with
  | none => s
  | some token =>
    match parseTrapNotes token.gmnotes with
    | none => s
    | some trapData =>
      let w := toggleWriteback trapData
      { s with graphics :=
          putKey tokenId (updateTrapUsesG token w.1 trapData.maxUses (some w.2)) s.graphics }

/-- `handleTrapTrigger` (TrapSystem.js:880-917), state part: require an
armed trap with uses, create the lock record with the descriptor snapshot
and `macroTriggered = false`, and tag the held token.  The control panel
is presentation. -/
def handleTrapTrigger (s : SysState) (tokenId trapId : String) : SysState :=
  match getKey trapId s.graphics, getKey tokenId s.graphics with
  | some trapTok, some token =>
    match parseTrapNotes trapTok.gmnotes with
    | none => s
    | some data =>
      if !data.isArmed || data.currentUses ≤ 0 then s
      else
        { s with
          lockedTokens := putKey tokenId ⟨trapId, false, data⟩ s.lockedTokens
          graphics := putKey tokenId
            { token with gmnotes := setLockTag token.gmnotes trapId true } s.graphics }
  | _, _ => s

/-- `markTriggered` (TrapSystem.js:960-965). -/
def markTriggered (s : SysState) (tokenId : String) : SysState :=
  match getKey tokenId s.lockedTokens with
  | some l => { s with lockedTokens := putKey tokenId { l with macroTriggered := true } s.lockedTokens }
  | none => s

/-- `allowMovement` (TrapSystem.js:920-945): no lock record means an
immediate return; otherwise clear the token's lock tag, and when an effect
ran write the snapshot's uses minus one back to the trap (forcing a
disarm at zero); finally delete the lock record and add the token to the
safe-move set. -/
def allowMovement (s : SysState) (tokenId : String) : SysState :=
  match getKey tokenId s.lockedTokens with
  | none => s
  | some lockData =>
    let trapId := lockData.trapToken
    let s1 :=
      match getKey tokenId s.graphics, getKey trapId s.graphics with
      | some token, some trapTok =>
        let token1 := { token with gmnotes := setLockTag token.gmnotes trapId false }
        let gs := putKey tokenId token1 s.graphics
        if lockData.macroTriggered then
          let newUses := lockData.trapData.currentUses - 1
          let trap1 := updateTrapUsesG trapTok newUses lockData.trapData.maxUses none
          let trap2 :=
            if newUses ≤ 0 then updateTrapUsesG trap1 0 lockData.trapData.maxUses (some false)
            else trap1
          { s with graphics := putKey trapId trap2 gs }
        else { s with graphics := gs }
      | _, _ => s
    { s1 with
      lockedTokens := delKey tokenId s1.lockedTokens
      safeMoveTokens :=
        if tokenId ∈ s1.safeMoveTokens then s1.safeMoveTokens else tokenId :: s1.safeMoveTokens }

/-- The body of the delayed relocation callback scheduled by
`checkTrapTrigger` (TrapSystem.js:807-809 and 821-823): after the fixed
delay the moved token is set to the resolved final position.  The callback
consults no lock state before moving. -/
def fireDelayedMove (s : SysState) (tokenId : String) (finalPos : ℚ × ℚ) : SysState :=
  match getKey tokenId s.graphics with
  | some g => { s with graphics := putKey tokenId { g with left := finalPos.1, top := finalPos.2 } s.graphics }
  | none => s

/-! ### Spatial detector (TrapSystem.js:204-290)

Pixel geometry over exact rationals.  Where the source compares
`Math.sqrt` results the embedding compares the squared quantities, which
is order-equivalent for nonnegative radicands. -/

/-- Intersection area of the two axis-aligned pixel boxes of
`checkGridOverlap` (TrapSystem.js:209-227). -/
def overlapAreaOf (t1 t2 : Graphic) : ℚ :=
  let xO := max 0 (min (t1.left + t1.width / 2) (t2.left + t2.width / 2) -
                   max (t1.left - t1.width / 2) (t2.left - t2.width / 2))
  let yO := max 0 (min (t1.top + t1.height / 2) (t2.top + t2.height / 2) -
                   max (t1.top - t1.height / 2) (t2.top - t2.height / 2))
  xO * yO

/-- `checkGridOverlap` (TrapSystem.js:204-232): the overlap percentage
relative to the first (moved) token's own box area, triggering at 5%. -/
def checkGridOverlap (t1 t2 : Graphic) : Bool :=
  let overlapPct := overlapAreaOf t1 t2 / (t1.width * t1.height) * 100
  decide (overlapPct ≥ 5)

/-- `lineIntersection` (TrapSystem.js:281-290): parametric segment-segment
intersection, valid when both parameters lie in `[0,1]`. -/
def lineIntersection (x1 y1 x2 y2 x3 y3 x4 y4 : ℚ) : Option (ℚ × ℚ) :=
  let denom := (x1 - x2) * (y3 - y4) - (y1 - y2) * (x3 - x4)
  if denom = 0 then none
  else
    let t := ((x1 - x3) * (y3 - y4) - (y1 - y3) * (x3 - x4)) / denom
    let u := -((x1 - x2) * (y1 - y3) - (y1 - y2) * (x1 - x3)) / denom
    if 0 ≤ t ∧ t ≤ 1 ∧ 0 ≤ u ∧ u ≤ 1 then
      some (x1 + t * (x2 - x1), y1 + t * (y2 - y1))
    else none

/-- The margin of `checkLineIntersection` (TrapSystem.js:249): 5% of the
trap box's smaller dimension. -/
def trapMargin (trap : Graphic) : ℚ := min trap.width trap.height * (5 / 100)

/-- The inside test of `checkLineIntersection` (TrapSystem.js:250-252):
within the margin-expanded box, boundary included. -/
def insideExpanded (trap : Graphic) (x y : ℚ) : Bool :=
  let m := trapMargin trap
  decide (trap.left - trap.width / 2 - m ≤ x ∧ x ≤ trap.left + trap.width / 2 + m ∧
          trap.top - trap.height / 2 - m ≤ y ∧ y ≤ trap.top + trap.height / 2 + m)

/-- The four expanded edges of the trap box (TrapSystem.js:259-264), each
as `(x1, y1, x2, y2)`. -/
def trapEdges (trap : Graphic) : List (ℚ × ℚ × ℚ × ℚ) :=
  let m := trapMargin trap
  let l := trap.left - trap.width / 2 - m
  let r := trap.left + trap.width / 2 + m
  let t := trap.top - trap.height / 2 - m
  let b := trap.top + trap.height / 2 + m
  [(l, t, r, t), (r, t, r, b), (r, b, l, b), (l, b, l, t)]

/-- The edge intersections collected at TrapSystem.js:265-272. -/
def edgeIntersections (startX startY endX endY : ℚ) (trap : Graphic) : List (ℚ × ℚ) :=
  (trapEdges trap).filterMap fun e =>
    lineIntersection startX startY endX endY e.1 e.2.1 e.2.2.1 e.2.2.2

/-- Squared distance from the path start, the order the closest-point
reduction of TrapSystem.js:275-279 compares by (the source compares the
square roots). -/
def distSqFrom (sx sy : ℚ) (p : ℚ × ℚ) : ℚ := (p.1 - sx) ^ 2 + (p.2 - sy) ^ 2

/-- The closest-point reduction of TrapSystem.js:275-279 (a fold over the
whole list seeded with its first element, keeping the strictly nearer
point). -/
def closestFrom (sx sy : ℚ) (a : ℚ × ℚ) (l : List (ℚ × ℚ)) : ℚ × ℚ :=
  l.foldl (fun closest cur =>
    if distSqFrom sx sy cur < distSqFrom sx sy closest then cur else closest) a

/-- `checkLineIntersection` (TrapSystem.js:235-280): movements shorter
than `gridSize × 0.2` return no intersection; a path endpoint inside the
expanded box (start first) is returned as the contact point; otherwise
the segment is intersected with the four expanded edges and the
intersection nearest the start is returned. -/
def checkLineIntersection (startX startY endX endY : ℚ) (trap : Graphic) (gridSize : ℚ) :
    Option (ℚ × ℚ) :=
  let dx := endX - startX
  let dy := endY - startY
  if dx ^ 2 + dy ^ 2 < (gridSize * (2 / 10)) ^ 2 then none
  else if insideExpanded trap startX startY then some (startX, startY)
  else if insideExpanded trap endX endY then some (endX, endY)
  else
    match edgeIntersections startX startY endX endY trap with
    | [] => none
    | first :: rest => some (closestFrom startX startY first (first :: rest))

/-! ### Skill-check resolution pipeline (TrapSystem.js:1668-2011, 2546-2584) -/

/-- A roll event as `handleRollResult` receives it: the structured shape
built from `advancedroll` messages, or the bare shape from `rollresult`
messages (then only `total`, and possibly an auto-associated character). -/
structure Roll where
  total : Int
  characterid : Option String := none
  rolledSkillName : Option Str := none
  isAdvantageRoll : Bool := false
  firstRoll : Option Int := none
  secondRoll : Option Int := none
  rollType : Option String := none
deriving Repr, DecidableEq

/-- `normalizeType` (TrapSystem.js:1862-1864): lower-case, strip one
trailing `check`/`save` suffix with its preceding whitespace, trim. -/
def normalizeType (s : Str) : Str :=
  let l := lowerS s
  let l2 :=
    if endsWith (str "check") l then dropTrailingWs (dropSuffix 5 l)
    else if endsWith (str "save") l then dropTrailingWs (dropSuffix 4 l)
    else l
  trimS l2

/-- A flat roll: the event carries no (or an empty) skill label
(TrapSystem.js:1874). -/
def isFlatRollOf (r : Roll) : Bool :=
  match r.rolledSkillName with
  | none => true
  | some l => l.isEmpty

/-- The mismatch test of TrapSystem.js:1870-1893: flat-vs-named in either
direction, or two differing named labels after normalization. -/
def mismatchCond (expectedRaw : Str) (r : Roll) : Bool :=
  let expectedType := normalizeType expectedRaw
  let rolledType := normalizeType (r.rolledSkillName.getD [])
  let isFlat := isFlatRollOf r
  let expectsFlat := decide (expectedType = str "flat roll")
  (expectsFlat && !isFlat) || (!expectsFlat && isFlat) ||
    (!expectsFlat && !isFlat && decide (expectedType ≠ rolledType))

/-- `total >= dc` under JavaScript number semantics: a `NaN` DC (`none`)
compares false. -/
def jsGE (a : Int) (dc : Option Int) : Bool :=
  match dc with
  | some d => decide (a ≥ d)
  | none => false

/-- Strategy 1 of `handleRollResult` (TrapSystem.js:1778-1798): an event
carrying a character id consults the per-character index; the match is
kept only when the character exists and the roller is GM, one of its
controllers, or the check's original requester. -/
def strat1 (s : SysState) (roll : Roll) (roller : String) : Option PendingCheck :=
  match roll.characterid with
  | none => none
  | some cid =>
    match getKey cid s.pendingChecksByChar with
    | none => none
    | some pc =>
      let authorized :=
        match getKey cid s.characters with
        | some ch => playerIsGM s roller || ch.controlledby.contains roller || roller = pc.playerid
        | none => false
      if authorized then some pc else none

/-- The filter of TrapSystem.js:1803-1807: characters the roller controls
that also have a nonempty, non-GM controller entry (`pId.trim()` is the
same whitespace trim as `trimS`). -/
def charsControlledByRoller (s : SysState) (roller : String) : List (String × CharacterObj) :=
  s.characters.filter fun p =>
    p.2.controlledby.contains roller &&
    p.2.controlledby.any (fun pid =>
      pid != "" && !(trimS pid.data).isEmpty && !playerIsGM s pid)

/-- The candidate list of strategy 2 (TrapSystem.js:1809-1817): open
per-character checks of those characters, kept only when the indexed
check itself names that character. -/
def potentialChecks (s : SysState) (roller : String) : List PendingCheck :=
  (charsControlledByRoller s roller).filterMap fun p =>
    match getKey p.1 s.pendingChecksByChar with
    | some pc => if pc.characterId = some p.1 then some pc else none
    | none => none

/-- Strategy 3 (TrapSystem.js:1832-1844): the check keyed by the roller's
player id. -/
def strat3 (s : SysState) (roller : String) : Option PendingCheck :=
  getKey roller s.pendingChecks

/-- The full matching cascade of `handleRollResult`
(TrapSystem.js:1775-1849), also returning the roll with the character id
the source backfills on it. -/
def findCheck (s : SysState) (roll : Roll) (roller : String) : Option PendingCheck × Roll :=
  match strat1 s roll roller with
  | some pc => (some pc, roll)
  | none =>
    let viaStrat2 : Option PendingCheck :=
      if roll.characterid = none then
        match potentialChecks s roller with
        | [pc] => some pc
        | _ => none
      else none
    match viaStrat2 with
    | some pc => (some pc, { roll with characterid := pc.characterId })
    | none =>
      match strat3 s roller with
      | some pc =>
        let roll' :=
          match roll.characterid, pc.characterId with
          | none, some cid => { roll with characterid := some cid }
          | _, _ => roll
        (some pc, roll')
      | none => (none, roll)

/-- What one pipeline step reports (a summary of the chat output the
source sends; lookups that merely log and return are `noop`, caught
exceptions `errorOut`). -/
inductive SysAction where
  | dropped
  | mismatchPrompt (expected rolled : Str)
  | criticalCharMismatch
  | resolvedAdv (final : Int) (success : Bool)
  | waitingSecond (first : Int)
  | resolvedManual (final : Int) (success : Bool)
  | rollPrompt (skill : Str) (advantage : String)
  | noop
  | errorOut
deriving Repr, DecidableEq

/-- The resolution write-back and cleanup shared by both resolution
branches of `handleRollResult` (TrapSystem.js:1935-1949 and 1992-2005):
decrement uses from the check's config snapshot, remove the check from
both indexes (the player-keyed entry only when it is still this check),
and clear the DC-reveal flag. -/
def resolveCleanup (s : SysState) (pc : PendingCheck) (token : Graphic) (roller : String) :
    SysState :=
  let w := triggerWriteback pc.config.currentUses
  let token' := updateTrapUsesG token w.1 pc.config.maxUses (some w.2)
  let s1 := { s with graphics := putKey pc.tokenId token' s.graphics }
  let s2 := { s1 with pendingChecksByChar :=
    (match pc.characterId with
     | some cid => delKey cid s1.pendingChecksByChar
     | none => s1.pendingChecksByChar) }
  let s3 := { s2 with pendingChecks :=
    (if getKey pc.playerid s2.pendingChecks = some pc then delKey pc.playerid s2.pendingChecks
     else s2.pendingChecks) }
  { s3 with displayDCForCheck := putKey roller false s3.displayDCForCheck }

/-- `handleRollResult` (TrapSystem.js:1771-2010).  Macro execution and
chat are summarised in the returned `SysAction`; a missing token object
or an empty checks list would throw in the source and is `errorOut`. -/
def handleRollResult (s : SysState) (roll : Roll) (roller : String) : SysState × SysAction :=
  match findCheck s roll roller with
  | (none, _) => (s, .dropped)
  | (some pc, roll') =>
    match getKey pc.tokenId s.graphics, pc.config.checks with
    | some token, check :: _ =>
      if mismatchCond check.type roll' then
        (s, .mismatchPrompt check.type (roll'.rolledSkillName.getD []))
      else if (match pc.characterId, roll'.characterid with
               | some e, some a => decide (e ≠ a)
               | _, _ => false) then
        (s, .criticalCharMismatch)
      else if roll'.isAdvantageRoll then
        (resolveCleanup s pc token roller, .resolvedAdv roll'.total (jsGE roll'.total check.dc))
      else if pc.firstRoll = none ∧ (pc.advantage = some "advantage" ∨ pc.advantage = some "disadvantage") then
        let pc' := { pc with firstRoll := some roll'.total }
        let s1 := { s with pendingChecksByChar :=
          (match pc.characterId with
           | some cid => putKey cid pc' s.pendingChecksByChar
           | none => s.pendingChecksByChar) }
        let s2 := { s1 with pendingChecks := putKey pc.playerid pc' s1.pendingChecks }
        (s2, .waitingSecond roll'.total)
      else
        let finalTotal :=
          if pc.advantage ≠ some "normal" then
            if pc.advantage = some "advantage" then max (pc.firstRoll.getD 0) roll'.total
            else min (pc.firstRoll.getD 0) roll'.total
          else roll'.total
        (resolveCleanup s pc token roller, .resolvedManual finalTotal (jsGE finalTotal check.dc))
    | _, _ => (s, .errorOut)

/-- `menu.handleRollCheck` (TrapSystem.js:1668-1735), state part: re-parse
the trap, pick the indexed (or pending custom) check, store a fresh
pending check with the chosen advantage mode and `firstRoll = null` in
both indexes, and prompt for the roll. -/
def handleRollCheck (s : SysState) (trapTokenId : String) (checkIndex : ChkIdx)
    (advantage : String) (playerid : String) : SysState × SysAction :=
  match getKey trapTokenId s.graphics with
  | none => (s, .noop)
  | some token =>
    match parseTrapNotes token.gmnotes with
    | none => (s, .noop)
    | some config =>
      let check? :=
        match checkIndex with
        | .custom => (getKey playerid s.pendingChecks).bind fun pc => pc.config.checks.head?
        | .num i => config.checks.get? i
      match check? with
      | none => (s, .noop)
      | some check =>
        let existing := getKey playerid s.pendingChecks
        let pc : PendingCheck := {
          tokenId := trapTokenId
          checkIndex := checkIndex
          config := { config with checks := [check] }
          advantage := some advantage
          firstRoll := none
          playerid := playerid
          characterId := existing.bind (·.characterId)
          characterName := existing.bind (·.characterName) }
        let s1 := { s with pendingChecks := putKey playerid pc s.pendingChecks }
        let s2 :=
          match pc.characterId with
          | some cid => { s1 with pendingChecksByChar := putKey cid pc s1.pendingChecksByChar }
          | none => s1
        (s2, .rollPrompt check.type advantage)

/-- The roll event the accept branch of `resolvemismatch` rebuilds
(TrapSystem.js:2562-2571): the provided value, tagged with the pending
check's expected skill. -/
def acceptRollData (pc : PendingCheck) (check : CheckSpec) (rollValue : Int)
    (rollTypeArg : Option String) (isAdvRoll : Bool) : Roll :=
  { total := rollValue
    firstRoll := some rollValue
    secondRoll := none
    isAdvantageRoll := isAdvRoll
    rollType := rollTypeArg
    characterid := pc.characterId
    rolledSkillName := some check.type }

/-- The `resolvemismatch` chat command (TrapSystem.js:2546-2584): look the
pending check up by character id, then player id; accept replays the
provided value through `handleRollResult` tagged with the expected skill;
reject re-issues the original roll prompt via `handleRollCheck`. -/
def resolveMismatch (s : SysState) (entityId trapTokenId : String) (accept : Bool)
    (rollValue : Int) (rollTypeArg : Option String) (isAdvRoll : Bool) : SysState × SysAction :=
  let pc? :=
    match getKey entityId s.pendingChecksByChar with
    | some pc => some pc
    | none => getKey entityId s.pendingChecks
  match pc?, getKey trapTokenId s.graphics with
  | some pc, some _ =>
    if accept then
      match pc.config.checks with
      | [] => (s, .errorOut)
      | check :: _ =>
        handleRollResult s (acceptRollData pc check rollValue rollTypeArg isAdvRoll) pc.playerid
    else
      handleRollCheck s trapTokenId pc.checkIndex (pc.advantage.getD "normal") pc.playerid
  | _, _ => (s, .noop)

/-! ### Claim-level definitions and concrete fixtures -/

/-- The descriptor invariant of the specification:
`0 ≤ currentUses ≤ maxUses` and `currentUses = 0 ⇒ not armed`. -/
def invariantHolds (c m : Int) (armed : Bool) : Prop :=
  0 ≤ c ∧ c ≤ m ∧ (c = 0 → armed = false)

/-- The candidate set for a bare roll as claim C5 words it: the open
per-character pending checks among the characters the rolling player
controls. -/
def claimCandidatesC5 (s : SysState) (roller : String) : List PendingCheck :=
  s.characters.filterMap fun p =>
    if p.2.controlledby.contains roller then getKey p.1 s.pendingChecksByChar else none

/-- A trap note text in the canonical shape the setup commands write
(TrapSystem.js:1132-1154): marker, uses field, then a tail `A` (the armed
field and closing brace); spelled in segmented form for the replacement
proofs. -/
def canonicalTail (A : Str) (v w : Nat) : Str :=
  str "\x7b!traptrigger " ++
    (str "uses:" ++ (' ' :: (natStr v ++ ('/' :: (natStr w ++ (' ' :: A))))))

/-- The canonical armed trap note with the given uses values. -/
def canonicalNotes (v w : Nat) : Str := canonicalTail (str "armed: on\x7d") v w

/-- A one-cell (70 by 70 pixel) trap graphic centred at (35, 35). -/
def trapCell : Graphic := ⟨35, 35, 70, 70, []⟩

/-- An interaction trap whose single check expects a flat d20 roll. -/
def flatNotes : Str :=
  str "\x7b!traptrigger uses: 2/2 armed: on type: interaction checks: \"Flat Roll:12\" success: sM failure: fM\x7d"

def flatTrapG : Graphic := ⟨35, 35, 70, 70, flatNotes⟩

def flatCfg : TrapData :=
  match parseTrapNotes flatNotes with
  | some d => d
  | none => ⟨0, 0, true, ⟨[], []⟩, [], none, [], [], none, none, true⟩

/-- A pending advantage check against the flat-roll trap, requested by
player `p1` for character `c1`. -/
def pcFlat : PendingCheck :=
  { tokenId := "trap1", checkIndex := .num 0, config := flatCfg, advantage := some "advantage"
    firstRoll := none, playerid := "p1", characterId := some "c1", characterName := some "Hero" }

/-- A state with the flat-roll check open in both indexes. -/
def sPipe : SysState :=
  { graphics := [("trap1", flatTrapG)], characters := [("c1", ⟨["p1"]⟩)]
    players := [("gm1", ⟨true, true⟩), ("p1", ⟨true, false⟩)]
    lockedTokens := [], safeMoveTokens := [], triggersEnabled := true
    pendingChecks := [("p1", pcFlat)], pendingChecksByChar := [("c1", pcFlat)]
    displayDCForCheck := [] }

/-- An interaction trap whose single check is the named skill Stealth. -/
def stealthNotes : Str :=
  str "\x7b!traptrigger uses: 2/2 armed: on type: interaction checks: \"Stealth:15\" success: sM failure: fM\x7d"

def stealthTrapG : Graphic := ⟨35, 35, 70, 70, stealthNotes⟩

def stealthCfg : TrapData :=
  match parseTrapNotes stealthNotes with
  | some d => d
  | none => ⟨0, 0, true, ⟨[], []⟩, [], none, [], [], none, none, true⟩

/-- A normal-mode pending check against the Stealth trap. -/
def pcStealth : PendingCheck :=
  { tokenId := "trap2", checkIndex := .num 0, config := stealthCfg, advantage := some "normal"
    firstRoll := none, playerid := "p1", characterId := some "c1", characterName := some "Hero" }

def sStealth : SysState :=
  { graphics := [("trap2", stealthTrapG)], characters := [("c1", ⟨["p1"]⟩)]
    players := [("gm1", ⟨true, true⟩), ("p1", ⟨true, false⟩)]
    lockedTokens := [], safeMoveTokens := [], triggersEnabled := true
    pendingChecks := [("p1", pcStealth)], pendingChecksByChar := [("c1", pcStealth)]
    displayDCForCheck := [] }

/-- C5 counterexample state: an online GM controls the only character with
an open check, and that character has no non-GM controller. -/
def sGM : SysState :=
  { graphics := [("trap1", flatTrapG)], characters := [("c1", ⟨["gm1"]⟩)]
    players := [("gm1", ⟨true, true⟩)]
    lockedTokens := [], safeMoveTokens := [], triggersEnabled := true
    pendingChecks := [], pendingChecksByChar := [("c1", pcFlat)]
    displayDCForCheck := [] }

/-- The descriptor snapshot of the concrete lock fixture: 3 of 5 uses. -/
def lockSnap : TrapData :=
  ⟨3, 5, true, ⟨str "Primary", []⟩, [], none, str "standard", [], none, none, true⟩

def heldTokG : Graphic := ⟨105, 35, 70, 70, str "\x7b!traplocked trap: trapA\x7d"⟩

/-- A state holding token `tok1` on trap `trapA` with the effect already
applied; the trap's stored text meanwhile reads 7 of 9 uses. -/
def sLock : SysState :=
  { graphics := [("tok1", heldTokG), ("trapA", ⟨35, 35, 70, 70, canonicalNotes 7 9⟩)]
    characters := [], players := []
    lockedTokens := [("tok1", ⟨"trapA", true, lockSnap⟩)]
    safeMoveTokens := [], triggersEnabled := true
    pendingChecks := [], pendingChecksByChar := [], displayDCForCheck := [] }

/-! ### Helper lemmas: association lists, characters, digits, list scanning -/

theorem getKey_delKey_self (k : String) (l : List (String × α)) :
    getKey k (delKey k l) = none := by
  induction l with
  | nil => rfl
  | cons h t ih =>
    by_cases hk : h.1 = k
    · simpa [delKey, hk] using ih
    · simpa [delKey, getKey, hk] using ih

theorem getKey_putKey_self (k : String) (v : α) (l : List (String × α)) :
    getKey k (putKey k v l) = some v := by
  induction l with
  | nil => simp [putKey, getKey]
  | cons h t ih =>
    obtain ⟨k', v'⟩ := h
    by_cases hk : k' = k
    · simp [putKey, getKey, hk]
    · simpa [putKey, getKey, hk] using ih

theorem getKey_putKey_ne (k k' : String) (v : α) (l : List (String × α)) (h : ¬k' = k) :
    getKey k' (putKey k v l) = getKey k' l := by
  have h' : ¬k = k' := fun hh => h hh.symm
  induction l with
  | nil => simp [putKey, getKey, h']
  | cons hd t ih =>
    obtain ⟨k0, v0⟩ := hd
    by_cases hk : k0 = k
    · subst hk
      simp [putKey, getKey, h']
    · simp only [putKey, if_neg hk, getKey]
      rw [ih]

theorem toLower_of_isDigit (c : Char) (h : isDigitC c = true) : c.toLower = c := by
  simp [isDigitC] at h
  simp only [Char.toLower]
  rw [if_neg (by omega)]

theorem isWs_of_isDigit (c : Char) (h : isDigitC c = true) : isWs c = false := by
  simp [isDigitC] at h
  simp [isWs]
  omega

theorem isDigit_digitChar (d : Nat) : isDigitC (digitChar d) = true := by
  unfold digitChar
  split <;> decide

theorem toNat_digitChar (d : Nat) (h : d < 10) : (digitChar d).toNat - 48 = d := by
  interval_cases d <;> decide

theorem digitsVal_append (l : Str) (c : Char) :
    digitsVal (l ++ [c]) = 10 * digitsVal l + (c.toNat - 48) := by
  simp [digitsVal, List.foldl_append]

theorem digitsVal_natStrAux : ∀ f n, n ≤ f → digitsVal (natStrAux f n) = n := by
  intro f
  induction f with
  | zero =>
    intro n hn
    interval_cases n
    rfl
  | succ f ih =>
    intro n hn
    by_cases h0 : n = 0
    · subst h0; rfl
    · have hdiv : n / 10 ≤ f := by
        have := Nat.div_lt_self (Nat.pos_of_ne_zero h0) (by norm_num : 1 < 10)
        omega
      rw [natStrAux, if_neg h0, digitsVal_append, ih _ hdiv,
        toNat_digitChar _ (Nat.mod_lt n (by norm_num))]
      omega

theorem digitsVal_natStr (n : Nat) : digitsVal (natStr n) = n := by
  by_cases h : n = 0
  · subst h; rfl
  · rw [natStr, if_neg h]
    exact digitsVal_natStrAux n n le_rfl

theorem mem_natStrAux_digit : ∀ f n c, c ∈ natStrAux f n → isDigitC c = true := by
  intro f
  induction f with
  | zero => intro n c h; simp [natStrAux] at h
  | succ f ih =>
    intro n c h
    by_cases h0 : n = 0
    · rw [natStrAux, if_pos h0] at h; simp at h
    · rw [natStrAux, if_neg h0] at h
      rcases List.mem_append.mp h with h | h
      · exact ih _ _ h
      · simp at h
        subst h
        exact isDigit_digitChar _

theorem mem_natStr_digit (n : Nat) (c : Char) (h : c ∈ natStr n) : isDigitC c = true := by
  by_cases h0 : n = 0
  · subst h0
    simp [natStr] at h
    subst h
    decide
  · rw [natStr, if_neg h0] at h
    exact mem_natStrAux_digit _ _ _ h

theorem natStr_ne_nil (n : Nat) : natStr n ≠ [] := by
  by_cases h0 : n = 0
  · subst h0; simp [natStr]
  · rw [natStr, if_neg h0]
    cases n with
    | zero => exact absurd rfl h0
    | succ f => rw [natStrAux, if_neg h0]; simp

theorem intStr_of_nonneg (k : Int) (h : 0 ≤ k) : intStr k = natStr k.toNat := by
  cases k with
  | ofNat m => rfl
  | negSucc m => exact absurd h (by simp)

theorem takeWhile_cons_true (p : Char → Bool) (c : Char) (s : Str) (h : p c = true) :
    (c :: s).takeWhile p = c :: s.takeWhile p := by
  simp [List.takeWhile, h]

theorem takeWhile_cons_false (p : Char → Bool) (c : Char) (s : Str) (h : p c = false) :
    (c :: s).takeWhile p = [] := by
  simp [List.takeWhile, h]

theorem dropWhile_cons_true (p : Char → Bool) (c : Char) (s : Str) (h : p c = true) :
    (c :: s).dropWhile p = s.dropWhile p := by
  simp [List.dropWhile, h]

theorem dropWhile_cons_false (p : Char → Bool) (c : Char) (s : Str) (h : p c = false) :
    (c :: s).dropWhile p = c :: s := by
  simp [List.dropWhile, h]

theorem takeWhileAppend (p : Char → Bool) (l r : Str) (h : ∀ c ∈ l, p c = true) :
    (l ++ r).takeWhile p = l ++ r.takeWhile p := by
  induction l with
  | nil => simp
  | cons c t ih =>
    rw [List.cons_append, takeWhile_cons_true p c _ (h c (by simp)), ih fun c hc => h c (by simp [hc])]
    rfl

theorem dropWhileAppend (p : Char → Bool) (l r : Str) (h : ∀ c ∈ l, p c = true) :
    (l ++ r).dropWhile p = r.dropWhile p := by
  induction l with
  | nil => simp
  | cons c t ih =>
    rw [List.cons_append, dropWhile_cons_true p c _ (h c (by simp)), ih fun c hc => h c (by simp [hc])]

theorem stripLit_self_append (pat r : Str) : stripLit pat (pat ++ r) = some r := by
  induction pat with
  | nil => rfl
  | cons c t ih => simp [stripLit, ih]

theorem stripLit_cons_ne (c : Char) (p : Str) (d : Char) (s : Str) (h : ¬c = d) :
    stripLit (c :: p) (d :: s) = none := by
  simp [stripLit, h]

theorem stripLitCI_cons_ne (c : Char) (p : Str) (d : Char) (s : Str)
    (h : ¬c.toLower = d.toLower) : stripLitCI (c :: p) (d :: s) = none := by
  simp [stripLitCI, h]

theorem scanFor_cons_of_none (m : Str → Option (α × Str)) (c : Char) (s : Str)
    (h : m (c :: s) = none) :
    scanFor m (c :: s) =
      match scanFor m s with
      | some (pre, a, rest) => some (c :: pre, a, rest)
      | none => none := by
  simp [scanFor, h]

theorem scanFor_cons_of_some (m : Str → Option (α × Str)) (c : Char) (s : Str) (a : α)
    (rest : Str) (h : m (c :: s) = some (a, rest)) :
    scanFor m (c :: s) = some ([], a, rest) := by
  simp [scanFor, h]

theorem scanFor_append_of_head_none (m : Str → Option (α × Str)) (l r : Str)
    (h : ∀ c ∈ l, ∀ t, m (c :: t) = none) :
    scanFor m (l ++ r) =
      match scanFor m r with
      | some (pre, a, rest) => some (l ++ pre, a, rest)
      | none => none := by
  induction l with
  | nil =>
    simp only [List.nil_append]
    cases hh : scanFor m r with
    | none => rfl
    | some x => obtain ⟨pre, a, rest⟩ := x; rfl
  | cons c t ih =>
    rw [List.cons_append, scanFor_cons_of_none m c (t ++ r) (h c (by simp) _),
      ih fun c hc t' => h c (by simp [hc]) t']
    cases scanFor m r with
    | none => rfl
    | some x => obtain ⟨pre, a, rest⟩ := x; rfl

theorem hasSub_append_right (pat l r : Str) (h : hasSub pat r = true) :
    hasSub pat (l ++ r) = true := by
  induction l with
  | nil => simpa
  | cons c t ih => simp [hasSub, ih]

/-! ### Matcher position lemmas -/

theorem matchUses_head_ne (d : Char) (t : Str) (h : ¬d = 'u') : matchUsesPat (d :: t) = none := by
  unfold matchUsesPat
  rw [show str "uses:" = 'u' :: str "ses:" from rfl,
    stripLit_cons_ne _ _ _ _ fun hh => h hh.symm]

theorem matchArmed_head_ne (d : Char) (t : Str) (h : ¬ 'a' = d.toLower) :
    matchArmedPat (d :: t) = none := by
  unfold matchArmedPat
  rw [show str "armed:" = 'a' :: str "rmed:" from rfl,
    stripLitCI_cons_ne _ _ _ _ (by rw [show ('a').toLower = 'a' from rfl]; exact h)]

theorem matchArmed_ap (t : Str) : matchArmedPat ('a' :: 'p' :: t) = none := by
  unfold matchArmedPat
  rw [show str "armed:" = 'a' :: ('r' :: str "med:") from rfl]
  rw [show stripLitCI ('a' :: ('r' :: str "med:")) ('a' :: 'p' :: t) =
        stripLitCI ('r' :: str "med:") ('p' :: t) from by simp [stripLitCI]]
  rw [stripLitCI_cons_ne _ _ _ _ (by decide)]

theorem matchUses_head_digit (d : Char) (t : Str) (h : isDigitC d = true) :
    matchUsesPat (d :: t) = none := by
  refine matchUses_head_ne d t fun hh => ?_
  rw [hh] at h
  exact absurd h (by decide)

theorem matchArmed_head_digit (d : Char) (t : Str) (h : isDigitC d = true) :
    matchArmedPat (d :: t) = none := by
  refine matchArmed_head_ne d t fun hh => ?_
  rw [toLower_of_isDigit d h] at hh
  rw [← hh] at h
  exact absurd h (by decide)

/-- The uses pattern succeeding at its canonical position. -/
theorem matchUses_at (ds es A : Str) (hds : ¬ds = []) (hdsd : ∀ c ∈ ds, isDigitC c = true)
    (hes : ¬es = []) (hesd : ∀ c ∈ es, isDigitC c = true) :
    matchUsesPat (str "uses:" ++ (' ' :: (ds ++ ('/' :: (es ++ (' ' :: A)))))) =
      some ((digitsVal ds, digitsVal es), ' ' :: A) := by
  obtain ⟨d, ds', rfl⟩ : ∃ d ds', ds = d :: ds' := by
    cases ds with
    | nil => exact absurd rfl hds
    | cons d ds' => exact ⟨d, ds', rfl⟩
  obtain ⟨e, es', rfl⟩ : ∃ e es', es = e :: es' := by
    cases es with
    | nil => exact absurd rfl hes
    | cons e es' => exact ⟨e, es', rfl⟩
  unfold matchUsesPat
  rw [stripLit_self_append]
  dsimp only
  rw [dropWhile_cons_true isWs ' ' _ (by decide)]
  rw [show ((d :: ds') ++ ('/' :: ((e :: es') ++ (' ' :: A)))).dropWhile isWs =
        (d :: ds') ++ ('/' :: ((e :: es') ++ (' ' :: A))) from by
    rw [List.cons_append, dropWhile_cons_false isWs d _ (isWs_of_isDigit d (hdsd d (by simp)))]]
  rw [takeWhileAppend isDigitC _ _ hdsd, takeWhile_cons_false isDigitC '/' _ (by decide),
    dropWhileAppend isDigitC _ _ hdsd, dropWhile_cons_false isDigitC '/' _ (by decide)]
  simp only [List.append_nil, List.isEmpty_iff]
  rw [if_neg hds]
  rw [show stripLit (str "/") ('/' :: ((e :: es') ++ (' ' :: A))) =
        some ((e :: es') ++ (' ' :: A)) from stripLit_self_append (str "/") _]
  dsimp only
  rw [takeWhileAppend isDigitC _ _ hesd, takeWhile_cons_false isDigitC ' ' _ (by decide),
    dropWhileAppend isDigitC _ _ hesd, dropWhile_cons_false isDigitC ' ' _ (by decide)]
  simp only [List.append_nil, List.isEmpty_iff]
  rw [if_neg hes]

theorem scanUses_canonicalA (A : Str) (v w : Nat) :
    scanFor matchUsesPat (canonicalTail A v w) =
      some (str "\x7b!traptrigger ", (v, w), ' ' :: A) := by
  have hP : ∀ c ∈ str "\x7b!traptrigger ", ¬c = 'u' := by decide
  have hm : matchUsesPat (str "uses:" ++ (' ' :: (natStr v ++ ('/' :: (natStr w ++ (' ' :: A)))))) =
      some ((v, w), ' ' :: A) := by
    rw [matchUses_at (natStr v) (natStr w) A (natStr_ne_nil v)
      (fun c hc => mem_natStr_digit v c hc) (natStr_ne_nil w)
      (fun c hc => mem_natStr_digit w c hc), digitsVal_natStr, digitsVal_natStr]
  have hscan : scanFor matchUsesPat
      (str "uses:" ++ (' ' :: (natStr v ++ ('/' :: (natStr w ++ (' ' :: A)))))) =
      some ([], (v, w), ' ' :: A) :=
    scanFor_cons_of_some matchUsesPat 'u'
      (str "ses:" ++ (' ' :: (natStr v ++ ('/' :: (natStr w ++ (' ' :: A)))))) _ _ hm
  rw [canonicalTail,
    scanFor_append_of_head_none matchUsesPat _ _ (fun c hc t => matchUses_head_ne c t (hP c hc)),
    hscan]
  simp

theorem replaceUses_canonicalA (A : Str) (v w : Nat) (c m : Int) (hc : 0 ≤ c) (hm : 0 ≤ m) :
    replaceFirst matchUsesPat
      (fun _ => str "uses: " ++ intStr c ++ str "/" ++ intStr m) (canonicalTail A v w) =
      canonicalTail A c.toNat m.toNat := by
  unfold replaceFirst
  rw [scanUses_canonicalA]
  dsimp only
  rw [intStr_of_nonneg c hc, intStr_of_nonneg m hm, canonicalTail,
    show str "uses: " = str "uses:" ++ [' '] from rfl, show str "/" = ['/'] from rfl]
  simp [List.append_assoc]

theorem hasSub_cons_right (pat : Str) (c : Char) (s : Str) (h : hasSub pat s = true) :
    hasSub pat (c :: s) = true := by
  simp [hasSub, h]

theorem hasSub_armed_canonical (v w : Nat) :
    hasSub (str "armed:") (canonicalTail (str "armed: on\x7d") v w) = true := by
  rw [canonicalTail]
  apply hasSub_append_right
  apply hasSub_append_right
  apply hasSub_cons_right
  apply hasSub_append_right
  apply hasSub_cons_right
  apply hasSub_append_right
  apply hasSub_cons_right
  decide

theorem scanArmed_canonical (v w : Nat) :
    scanFor matchArmedPat (canonicalTail (str "armed: on\x7d") v w) =
      some (str "\x7b!traptrigger " ++
        (str "uses:" ++ (' ' :: (natStr v ++ ('/' :: (natStr w ++ [' ']))))), true, ['\x7d']) := by
  have hA : matchArmedPat (str "armed: on\x7d") = some (true, ['\x7d']) := by decide
  have s9 : scanFor matchArmedPat (str "armed: on\x7d") = some ([], true, ['\x7d']) :=
    scanFor_cons_of_some matchArmedPat 'a' (str "rmed: on\x7d") _ _ hA
  have s8 : scanFor matchArmedPat (' ' :: str "armed: on\x7d") =
      some ([' '], true, ['\x7d']) := by
    rw [scanFor_cons_of_none _ _ _ (matchArmed_head_ne ' ' _ (by decide)), s9]
  have s7 : scanFor matchArmedPat (natStr w ++ (' ' :: str "armed: on\x7d")) =
      some (natStr w ++ [' '], true, ['\x7d']) := by
    rw [scanFor_append_of_head_none _ _ _
      (fun c hc t => matchArmed_head_digit c t (mem_natStr_digit w c hc)), s8]
  have s6 : scanFor matchArmedPat ('/' :: (natStr w ++ (' ' :: str "armed: on\x7d"))) =
      some ('/' :: (natStr w ++ [' ']), true, ['\x7d']) := by
    rw [scanFor_cons_of_none _ _ _ (matchArmed_head_ne '/' _ (by decide)), s7]
  have s5 : scanFor matchArmedPat
      (natStr v ++ ('/' :: (natStr w ++ (' ' :: str "armed: on\x7d")))) =
      some (natStr v ++ ('/' :: (natStr w ++ [' '])), true, ['\x7d']) := by
    rw [scanFor_append_of_head_none _ _ _
      (fun c hc t => matchArmed_head_digit c t (mem_natStr_digit v c hc)), s6]
  have s4 : scanFor matchArmedPat
      (' ' :: (natStr v ++ ('/' :: (natStr w ++ (' ' :: str "armed: on\x7d"))))) =
      some (' ' :: (natStr v ++ ('/' :: (natStr w ++ [' ']))), true, ['\x7d']) := by
    rw [scanFor_cons_of_none _ _ _ (matchArmed_head_ne ' ' _ (by decide)), s5]
  have hl2 : ∀ c ∈ str "ptrigger uses:", ¬ 'a' = c.toLower := by decide
  have s3 : scanFor matchArmedPat (str "ptrigger uses:" ++
      (' ' :: (natStr v ++ ('/' :: (natStr w ++ (' ' :: str "armed: on\x7d")))))) =
      some (str "ptrigger uses:" ++ (' ' :: (natStr v ++ ('/' :: (natStr w ++ [' '])))),
        true, ['\x7d']) := by
    rw [scanFor_append_of_head_none _ _ _
      (fun c hc t => matchArmed_head_ne c t (hl2 c hc)), s4]
  have s2 : scanFor matchArmedPat ('a' :: (str "ptrigger uses:" ++
      (' ' :: (natStr v ++ ('/' :: (natStr w ++ (' ' :: str "armed: on\x7d"))))))) =
      some ('a' :: (str "ptrigger uses:" ++ (' ' :: (natStr v ++ ('/' :: (natStr w ++ [' ']))))),
        true, ['\x7d']) := by
    rw [scanFor_cons_of_none matchArmedPat 'a'
      (str "ptrigger uses:" ++ (' ' :: (natStr v ++ ('/' :: (natStr w ++ (' ' :: str "armed: on\x7d"))))))
      (matchArmed_ap (str "trigger uses:" ++
        (' ' :: (natStr v ++ ('/' :: (natStr w ++ (' ' :: str "armed: on\x7d"))))))), s3]
  have hl1 : ∀ c ∈ str "\x7b!tr", ¬ 'a' = c.toLower := by decide
  have s1 : scanFor matchArmedPat (str "\x7b!tr" ++ ('a' :: (str "ptrigger uses:" ++
      (' ' :: (natStr v ++ ('/' :: (natStr w ++ (' ' :: str "armed: on\x7d")))))))) =
      some (str "\x7b!tr" ++
        ('a' :: (str "ptrigger uses:" ++ (' ' :: (natStr v ++ ('/' :: (natStr w ++ [' '])))))),
        true, ['\x7d']) := by
    rw [scanFor_append_of_head_none _ _ _
      (fun c hc t => matchArmed_head_ne c t (hl1 c hc)), s2]
  exact s1

theorem replaceArmed_off_canonical (v w : Nat) :
    replaceFirst matchArmedPat (fun _ => str "armed: " ++ str "off")
      (canonicalTail (str "armed: on\x7d") v w) =
      canonicalTail (str "armed: off\x7d") v w := by
  unfold replaceFirst
  rw [scanArmed_canonical]
  dsimp only
  rw [canonicalTail, show str "armed: off\x7d" = str "armed: " ++ (str "off" ++ ['\x7d']) from rfl]
  simp [List.append_assoc]

theorem updateNotes_canonical (v w : Nat) (c m : Int) (hc : 0 ≤ c) (hm : 0 ≤ m) :
    updateTrapUsesNotes (canonicalNotes v w) c m none = canonicalNotes c.toNat m.toNat := by
  unfold updateTrapUsesNotes canonicalNotes
  dsimp only
  exact replaceUses_canonicalA _ v w c m hc hm

theorem updateNotes_canonical_off (v w : Nat) (c m : Int) (hc : 0 ≤ c) (hm : 0 ≤ m) :
    updateTrapUsesNotes (canonicalNotes v w) c m (some false) =
      canonicalTail (str "armed: off\x7d") c.toNat m.toNat := by
  unfold updateTrapUsesNotes canonicalNotes
  dsimp only
  rw [replaceUses_canonicalA _ v w c m hc hm,
    if_pos (hasSub_armed_canonical c.toNat m.toNat)]
  exact replaceArmed_off_canonical _ _

theorem firstMatch_uses_canonicalA (A : Str) (v w : Nat) :
    firstMatch matchUsesPat (canonicalTail A v w) = some (v, w) := by
  unfold firstMatch
  rw [scanUses_canonicalA]

theorem updateTrapUsesG_canonical (g : Graphic) (v w : Nat) (c m : Int)
    (hg : g.gmnotes = canonicalNotes v w) (hc : 0 ≤ c) (hm : 0 ≤ m) :
    updateTrapUsesG g c m none = { g with gmnotes := canonicalNotes c.toNat m.toNat } := by
  unfold updateTrapUsesG
  rw [hg, show (canonicalNotes v w).isEmpty = false from rfl]
  simp only [Bool.false_eq_true, if_false]
  rw [updateNotes_canonical v w c m hc hm]

theorem updateTrapUsesG_canonical_off (g : Graphic) (v w : Nat) (c m : Int)
    (hg : g.gmnotes = canonicalNotes v w) (hc : 0 ≤ c) (hm : 0 ≤ m) :
    updateTrapUsesG g c m (some false) =
      { g with gmnotes := canonicalTail (str "armed: off\x7d") c.toNat m.toNat } := by
  unfold updateTrapUsesG
  rw [hg, show (canonicalNotes v w).isEmpty = false from rfl]
  simp only [Bool.false_eq_true, if_false]
  rw [updateNotes_canonical_off v w c m hc hm]

/-- C10: the release path writes the trap's uses from the lock snapshot
(snapshot uses minus one, clamped with a forced disarm at zero), no
matter what uses values the trap's current text holds. -/
theorem claim_C10 (s : SysState) (tokenId : String) (lock : LockRecord) (tok trap : Graphic)
    (v w : Nat)
    (hLock : getKey tokenId s.lockedTokens = some lock)
    (hMac : lock.macroTriggered = true)
    (hTok : getKey tokenId s.graphics = some tok)
    (hTrap : getKey lock.trapToken s.graphics = some trap)
    (hNotes : trap.gmnotes = canonicalNotes v w)
    (hC : 1 ≤ lock.trapData.currentUses)
    (hM : 0 ≤ lock.trapData.maxUses) :
    ((getKey lock.trapToken (allowMovement s tokenId).graphics).map fun g =>
        firstMatch matchUsesPat g.gmnotes) =
      some (some ((lock.trapData.currentUses - 1).toNat, lock.trapData.maxUses.toNat)) := by
  have hc1 : (0 : Int) ≤ lock.trapData.currentUses - 1 := by omega
  simp only [allowMovement, hLock, hTok, hTrap, hMac, if_true]
  rw [updateTrapUsesG_canonical trap v w _ _ hNotes hc1 hM]
  by_cases hdep : lock.trapData.currentUses - 1 ≤ 0
  · rw [if_pos hdep,
      updateTrapUsesG_canonical_off _ (lock.trapData.currentUses - 1).toNat
        lock.trapData.maxUses.toNat 0 lock.trapData.maxUses rfl le_rfl hM]
    rw [getKey_putKey_self]
    simp only [Option.map_some']
    rw [firstMatch_uses_canonicalA]
    have h0 : (lock.trapData.currentUses - 1).toNat = (0 : Int).toNat := by omega
    rw [h0]
  · rw [if_neg hdep]
    rw [getKey_putKey_self]
    simp only [Option.map_some']
    rw [canonicalNotes, firstMatch_uses_canonicalA]

/-! ### Claim theorems -/

/-- C1 counterexample: parsing a stored descriptor reading
`uses: 0/3 armed: on` yields `currentUses = 0` together with
`isArmed = true`, so the result of parsing a stored descriptor need not
satisfy the claimed invariant. -/
theorem claim_C1_counterexample :
    (parseTrapNotes (str "\x7b!traptrigger uses: 0/3 armed: on\x7d")).map
      (fun d => (d.currentUses, d.maxUses, d.isArmed)) = some (0, 3, true) := by
  decide

/-- C1 (amended): parsing guarantees only that both uses values are
nonnegative — it does not enforce `currentUses ≤ maxUses` nor
`currentUses = 0 → disarmed`; the uses/armed writebacks of the mutating
operations preserve the invariant under the side conditions the system
establishes (a prior state satisfying the invariant, `maxUses ≥ 1` for
the toggle's use-restore, and a positive snapshot for the release). -/
theorem claim_C1_amended :
    (∀ notes d, parseTrapNotes notes = some d → 0 ≤ d.currentUses ∧ 0 ≤ d.maxUses) ∧
    (∀ c m : Int, 0 ≤ c → c ≤ m →
      invariantHolds (triggerWriteback c).1 m (triggerWriteback c).2) ∧
    (∀ d : TrapData, invariantHolds d.currentUses d.maxUses d.isArmed → 1 ≤ d.maxUses →
      invariantHolds (toggleWriteback d).1 d.maxUses (toggleWriteback d).2) ∧
    (∀ c m : Int, 1 ≤ c → c ≤ m →
      0 ≤ (releaseWriteback c).1 ∧ (releaseWriteback c).1 ≤ m ∧
        ((releaseWriteback c).1 = 0 → (releaseWriteback c).2 = some false)) := by
  refine ⟨?_, ?_, ?_, ?_⟩
  · intro notes d h
    unfold parseTrapNotes at h
    dsimp only at h
    split_ifs at h
    obtain rfl := Option.some.inj h
    exact ⟨Int.natCast_nonneg _, Int.natCast_nonneg _⟩
  · intro c m h0 h1
    unfold triggerWriteback invariantHolds
    dsimp only
    split_ifs with h2
    · exact ⟨le_rfl, by omega, fun _ => rfl⟩
    · refine ⟨le_max_left 0 _, max_le (by omega) (by omega), fun hh => absurd (le_of_eq hh) h2⟩
  · intro d hinv hm
    obtain ⟨h0, h1, h2⟩ := hinv
    unfold toggleWriteback invariantHolds
    dsimp only
    by_cases ha : d.isArmed
    · rw [ha]
      simp only [Bool.not_true, Bool.false_and, Bool.false_eq_true, if_false]
      exact ⟨h0, h1, fun _ => trivial⟩
    · have ha' : d.isArmed = false := by simpa using ha
      rw [ha']
      simp only [Bool.not_false, Bool.true_and]
      by_cases hc : d.currentUses ≤ 0
      · rw [if_pos (decide_eq_true hc)]
        exact ⟨by omega, hm, fun hh => absurd hh (by omega)⟩
      · rw [if_neg (show ¬decide (d.currentUses ≤ 0) = true from by simpa using hc)]
        exact ⟨h0, h1, fun hh => absurd hh (by omega)⟩
  · intro c m h1 h2
    unfold releaseWriteback
    split_ifs with h
    · exact ⟨le_rfl, by omega, fun _ => rfl⟩
    · exact ⟨by omega, by omega, fun hh => absurd hh (by omega)⟩

/-- C2 (code defect): rewriting the armed field of a note whose trap block
is followed by the `ignoretraps` extension tag appends the armed field
inside the tag, so the extension text is not preserved. -/
theorem claim_C2 :
    updateTrapUsesNotes (str "\x7b!traptrigger uses: 1/2\x7d \x7bignoretraps\x7d") 1 2 (some false) =
      str "\x7b!traptrigger uses: 1/2\x7d \x7bignoretraps armed: off\x7d" ∧
    hasSub (str "\x7bignoretraps\x7d")
      (str "\x7b!traptrigger uses: 1/2\x7d \x7bignoretraps\x7d") = true ∧
    hasSub (str "\x7bignoretraps\x7d")
      (updateTrapUsesNotes (str "\x7b!traptrigger uses: 1/2\x7d \x7bignoretraps\x7d") 1 2
        (some false)) = false := by
  refine ⟨?_, ?_, ?_⟩ <;> decide

theorem allowMovement_no_lock (s : SysState) (tokenId : String)
    (h : getKey tokenId s.lockedTokens = none) : allowMovement s tokenId = s := by
  unfold allowMovement
  rw [h]

theorem lockedTokens_after_allowMovement (s : SysState) (tokenId : String) :
    getKey tokenId (allowMovement s tokenId).lockedTokens = none := by
  unfold allowMovement
  cases hl : getKey tokenId s.lockedTokens with
  | none => exact hl
  | some lock =>
    dsimp only
    exact getKey_delKey_self _ _

/-- C3: releasing an entity with no lock record is a no-op, and releasing
the same entity twice equals releasing it once — the second call changes
no state (in particular it causes no further use-decrement). -/
theorem claim_C3 (s : SysState) (tokenId : String) :
    (getKey tokenId s.lockedTokens = none → allowMovement s tokenId = s) ∧
    allowMovement (allowMovement s tokenId) tokenId = allowMovement s tokenId :=
  ⟨allowMovement_no_lock s tokenId,
   allowMovement_no_lock _ _ (lockedTokens_after_allowMovement s tokenId)⟩

/-- C4 (code defect): after the lock is released, firing the delayed
relocation callback still moves the entity — the callback does not become
a no-op when the lock no longer exists. -/
theorem claim_C4 :
    getKey "tok1" (allowMovement sLock "tok1").lockedTokens = none ∧
    (getKey "tok1" (allowMovement sLock "tok1").graphics).map (fun g => (g.left, g.top)) =
      some (105, 35) ∧
    (getKey "tok1" (fireDelayedMove (allowMovement sLock "tok1") "tok1" (350, 350)).graphics).map
      (fun g => (g.left, g.top)) = some (350, 350) := by
  refine ⟨?_, ?_, ?_⟩ <;> decide

/-- C8: the overlap test fires exactly when the intersection area is at
least 5% of the moved token's own box area; an exact 5% overlap triggers
and a 4.99% overlap does not. -/
theorem claim_C8 :
    (∀ t1 t2 : Graphic, 0 < t1.width * t1.height →
      (checkGridOverlap t1 t2 = true ↔
        100 * overlapAreaOf t1 t2 ≥ 5 * (t1.width * t1.height))) ∧
    checkGridOverlap ⟨50, 50, 100, 100, []⟩ ⟨-30, -25, 100, 100, []⟩ = true ∧
    checkGridOverlap ⟨50, 50, 100, 100, []⟩ ⟨-30, -(2505/100 : ℚ), 100, 100, []⟩ = false := by
  refine ⟨?_, ?_, ?_⟩
  · intro t1 t2 h
    unfold checkGridOverlap
    rw [decide_eq_true_iff, ge_iff_le, ge_iff_le, div_mul_eq_mul_div, le_div_iff₀ h]
    constructor <;> intro hh <;> linarith
  · unfold checkGridOverlap overlapAreaOf
    rw [decide_eq_true_iff]
    norm_num [max_def, min_def]
  · unfold checkGridOverlap overlapAreaOf
    rw [decide_eq_false_iff_not]
    norm_num [max_def, min_def]

theorem closestFrom_spec (sx sy : ℚ) (l : List (ℚ × ℚ)) :
    ∀ a : ℚ × ℚ,
      (closestFrom sx sy a l = a ∨ closestFrom sx sy a l ∈ l) ∧
      distSqFrom sx sy (closestFrom sx sy a l) ≤ distSqFrom sx sy a ∧
      ∀ x ∈ l, distSqFrom sx sy (closestFrom sx sy a l) ≤ distSqFrom sx sy x := by
  induction l with
  | nil => exact fun a => ⟨Or.inl rfl, le_rfl, by simp⟩
  | cons b t ih =>
    intro a
    obtain ⟨hmem, hle, hall⟩ :=
      ih (if distSqFrom sx sy b < distSqFrom sx sy a then b else a)
    have hfold : closestFrom sx sy a (b :: t) =
        closestFrom sx sy (if distSqFrom sx sy b < distSqFrom sx sy a then b else a) t := rfl
    refine ⟨?_, ?_, ?_⟩
    · rw [hfold]
      rcases hmem with h | h
      · rw [h]
        split_ifs with hb
        · exact Or.inr (by simp)
        · exact Or.inl rfl
      · exact Or.inr (List.mem_cons_of_mem _ h)
    · rw [hfold]
      refine le_trans hle ?_
      split_ifs with hb
      · exact le_of_lt hb
      · exact le_rfl
    · intro x hx
      rw [hfold]
      rcases List.mem_cons.mp hx with rfl | hx
      · refine le_trans hle ?_
        split_ifs with hb
        · exact le_rfl
        · exact not_lt.mp hb
      · exact hall x hx

/-- C9 counterexample: a zero-length movement whose start point lies
inside the expanded trap box returns no intersection (the movement-size
guard fires first), although the claim says the inside endpoint is
returned. -/
theorem claim_C9_counterexample :
    insideExpanded trapCell 35 35 = true ∧
    checkLineIntersection 35 35 35 35 trapCell 70 = none := by
  constructor
  · unfold insideExpanded trapMargin trapCell
    rw [decide_eq_true_iff]
    norm_num [min_def]
  · unfold checkLineIntersection
    dsimp only
    rw [if_pos (by norm_num)]

/-- C9 (amended): provided the movement is at least `gridSize × 0.2` long
(shorter moves return no intersection), the segment-vs-expanded-box test
returns an inside start point first, else an inside end point, else the
edge intersection nearest the start (none when no edge qualifies);
a start point exactly on the expanded boundary counts as inside. -/
theorem claim_C9_amended :
    (∀ sx sy ex ey : ℚ, ∀ trap : Graphic, ∀ g : ℚ,
      (g * (2 / 10)) ^ 2 ≤ (ex - sx) ^ 2 + (ey - sy) ^ 2 →
      ((insideExpanded trap sx sy = true →
          checkLineIntersection sx sy ex ey trap g = some (sx, sy)) ∧
       (insideExpanded trap sx sy = false → insideExpanded trap ex ey = true →
          checkLineIntersection sx sy ex ey trap g = some (ex, ey)) ∧
       (insideExpanded trap sx sy = false → insideExpanded trap ex ey = false →
          (edgeIntersections sx sy ex ey trap = [] →
            checkLineIntersection sx sy ex ey trap g = none) ∧
          ∀ q, checkLineIntersection sx sy ex ey trap g = some q →
            q ∈ edgeIntersections sx sy ex ey trap ∧
            ∀ r ∈ edgeIntersections sx sy ex ey trap,
              distSqFrom sx sy q ≤ distSqFrom sx sy r))) ∧
    checkLineIntersection (-35 / 10) 35 (-200) 35 trapCell 70 = some (-35 / 10, 35) := by
  constructor
  · intro sx sy ex ey trap g hdist
    have hno : ¬((ex - sx) ^ 2 + (ey - sy) ^ 2 < (g * (2 / 10)) ^ 2) := not_lt.mpr hdist
    refine ⟨?_, ?_, ?_⟩
    · intro hin
      unfold checkLineIntersection
      rw [if_neg hno, if_pos hin]
    · intro hout hin
      unfold checkLineIntersection
      rw [if_neg hno, if_neg (by simp [hout]), if_pos hin]
    · intro hout1 hout2
      constructor
      · intro hempty
        unfold checkLineIntersection
        rw [if_neg hno, if_neg (by simp [hout1]), if_neg (by simp [hout2]), hempty]
      · intro q hq
        unfold checkLineIntersection at hq
        rw [if_neg hno, if_neg (by simp [hout1]), if_neg (by simp [hout2])] at hq
        cases hedge : edgeIntersections sx sy ex ey trap with
        | nil => rw [hedge] at hq; exact absurd hq (by simp)
        | cons first rest =>
          rw [hedge] at hq
          obtain rfl := Option.some.inj hq
          obtain ⟨hmem, hle, hall⟩ := closestFrom_spec sx sy (first :: rest) first
          refine ⟨?_, ?_⟩
          · rcases hmem with h | h
            · rw [h]; exact by simp
            · exact h
          · intro r hr
            exact hall r hr
  · unfold checkLineIntersection
    dsimp only
    rw [if_neg (by norm_num), if_pos (by
      unfold insideExpanded trapMargin trapCell
      rw [decide_eq_true_iff]
      norm_num [min_def])]

/-- C5 counterexample: a bare roll by an online GM who controls exactly
the one character with an open pending check is silently dropped, although
in the claim's words that check is the unique candidate among characters
controlled by the roller. -/
theorem claim_C5_counterexample :
    claimCandidatesC5 sGM "gm1" = [pcFlat] ∧
    findCheck sGM { total := 12 } "gm1" = (none, { total := 12 }) ∧
    handleRollResult sGM { total := 12 } "gm1" = (sGM, SysAction.dropped) := by
  refine ⟨?_, ?_, ?_⟩ <;> decide

/-- C5 (amended): the matching cascade as the source implements it —
(1) an event with a character id is matched by the per-character index
exactly when the indexed check exists, the character exists, and the
roller is the GM, one of its controllers, or the original requester;
(2) such an authorized match is adopted by the full cascade with the
roll unchanged; (3) a character-id event that fails strategy 1 skips
strategy 2 and falls back to the check keyed by the roller's player id,
still with the roll unchanged; (4) a bare roll is adopted by the unique
consistently-indexed pending check among the characters the roller
controls that also have a nonempty non-GM controller, backfilling the
character id; (5) zero or multiple such candidates fall back to the
player-keyed check; (6) when the cascade finds nothing the event is
dropped with the state unchanged, and (7) it is dropped exactly when the
cascade finds nothing. -/
theorem claim_C5_amended :
    (∀ (s : SysState) (roll : Roll) (roller : String) (pc : PendingCheck),
      strat1 s roll roller = some pc ↔
      ∃ cid, roll.characterid = some cid ∧
        getKey cid s.pendingChecksByChar = some pc ∧
        ∃ ch, getKey cid s.characters = some ch ∧
          (playerIsGM s roller = true ∨ ch.controlledby.contains roller = true ∨
            roller = pc.playerid)) ∧
    (∀ (s : SysState) (roll : Roll) (roller : String) (pc : PendingCheck),
      strat1 s roll roller = some pc →
      findCheck s roll roller = (some pc, roll)) ∧
    (∀ (s : SysState) (roll : Roll) (roller : String) (cid : String),
      roll.characterid = some cid →
      strat1 s roll roller = none →
      findCheck s roll roller = (strat3 s roller, roll)) ∧
    (∀ (s : SysState) (roll : Roll) (roller : String) (pc : PendingCheck),
      roll.characterid = none → potentialChecks s roller = [pc] →
      findCheck s roll roller = (some pc, { roll with characterid := pc.characterId })) ∧
    (∀ (s : SysState) (roll : Roll) (roller : String),
      roll.characterid = none → (∀ pc, ¬potentialChecks s roller = [pc]) →
      (findCheck s roll roller).1 = strat3 s roller) ∧
    (∀ (s : SysState) (roll : Roll) (roller : String) (r : Roll),
      findCheck s roll roller = (none, r) →
      handleRollResult s roll roller = (s, SysAction.dropped)) ∧
    (∀ (s : SysState) (roll : Roll) (roller : String),
      (handleRollResult s roll roller).2 = SysAction.dropped ↔
      (findCheck s roll roller).1 = none) := by
  refine ⟨?_, ?_, ?_, ?_, ?_, ?_, ?_⟩
  · intro s roll roller pc
    constructor
    · intro h
      unfold strat1 at h
      cases hcid : roll.characterid with
      | none => rw [hcid] at h; exact absurd h (by simp)
      | some cid =>
        rw [hcid] at h
        dsimp only at h
        cases hby : getKey cid s.pendingChecksByChar with
        | none => rw [hby] at h; exact absurd h (by simp)
        | some pc' =>
          rw [hby] at h
          dsimp only at h
          cases hch : getKey cid s.characters with
          | none => rw [hch] at h; exact absurd h (by simp)
          | some ch =>
            rw [hch] at h
            dsimp only at h
            by_cases hauth : (playerIsGM s roller || ch.controlledby.contains roller ||
                decide (roller = pc'.playerid)) = true
            · rw [if_pos hauth] at h
              obtain rfl := Option.some.inj h
              refine ⟨cid, rfl, hby, ch, hch, ?_⟩
              simpa [Bool.or_eq_true, decide_eq_true_iff, or_assoc] using hauth
            · rw [if_neg hauth] at h
              exact absurd h (by simp)
    · rintro ⟨cid, hcid, hby, ch, hch, hauth⟩
      unfold strat1
      rw [hcid]
      dsimp only
      rw [hby]
      dsimp only
      rw [hch]
      dsimp only
      rw [if_pos (show (playerIsGM s roller || ch.controlledby.contains roller ||
          decide (roller = pc.playerid)) = true by
        simpa [Bool.or_eq_true, decide_eq_true_iff, or_assoc] using hauth)]
  · intro s roll roller pc h
    unfold findCheck
    rw [h]
  · intro s roll roller cid hcid h1
    unfold findCheck
    rw [h1]
    dsimp only
    rw [if_neg (by rw [hcid]; exact fun h => Option.noConfusion h)]
    dsimp only
    cases hs : strat3 s roller with
    | none => rfl
    | some pc => rw [hcid]
  · intro s roll roller pc hnone hpot
    have h1 : strat1 s roll roller = none := by unfold strat1; rw [hnone]
    unfold findCheck
    rw [h1]
    dsimp only
    rw [if_pos hnone, hpot]
  · intro s roll roller hnone hpot
    have h1 : strat1 s roll roller = none := by unfold strat1; rw [hnone]
    unfold findCheck
    rw [h1]
    dsimp only
    rw [if_pos hnone]
    cases hp : potentialChecks s roller with
    | nil =>
      dsimp only
      cases strat3 s roller with
      | none => rfl
      | some pc => rfl
    | cons x t =>
      cases t with
      | nil => exact absurd hp (hpot x)
      | cons y t' =>
        dsimp only
        cases strat3 s roller with
        | none => rfl
        | some pc => rfl
  · intro s roll roller r h
    unfold handleRollResult
    rw [h]
  · intro s roll roller
    unfold handleRollResult
    cases hf : findCheck s roll roller with
    | mk o r =>
      cases o with
      | none => simp
      | some pc =>
        dsimp only
        constructor
        · intro h
          exfalso
          revert h
          cases hg : getKey pc.tokenId s.graphics with
          | none =>
            cases pc.config.checks <;> simp
          | some token =>
            cases pc.config.checks with
            | nil => simp
            | cons check rest =>
              dsimp only
              split
              · simp
              · split
                · simp
                · split
                  · simp
                  · split
                    · simp
                    · simp
        · intro h
          exact absurd h (by simp)

theorem handleRollCheck_graphics (s : SysState) (tid : String) (ci : ChkIdx) (adv pid : String) :
    (handleRollCheck s tid ci adv pid).1.graphics = s.graphics := by
  unfold handleRollCheck
  repeat'
    first
      | rfl
      | split
      | dsimp only

/-- C6 counterexample: against a flat-roll check the accept branch of the
mismatch prompt re-tags the replay with the expected label `Flat Roll`,
which itself re-triggers the mismatch prompt — the accepted value is never
resolved and the state is unchanged. -/
theorem claim_C6_counterexample :
    handleRollResult sPipe
        { total := 9, characterid := some "c1", rolledSkillName := some (str "Perception") }
        "p1" =
      (sPipe, SysAction.mismatchPrompt (str "Flat Roll") (str "Perception")) ∧
    resolveMismatch sPipe "c1" "trap1" true 15 (some "normal") false =
      (sPipe, SysAction.mismatchPrompt (str "Flat Roll") (str "Flat Roll")) := by
  constructor <;> decide

/-- C6 (amended): a normalization mismatch is never auto-resolved — the
state is unchanged and the prompt is issued; accept replays the provided
value through `handleRollResult` tagged with the originally expected
skill (which passes the mismatch test again only for a nonempty named
skill, not for a flat-roll check); reject re-issues the original roll
prompt via `handleRollCheck`, which does not touch any trap state. -/
theorem claim_C6_amended :
    (∀ (s : SysState) (roll : Roll) (roller : String) (pc : PendingCheck) (roll' : Roll)
        (tok : Graphic) (check : CheckSpec) (rest : List CheckSpec),
      findCheck s roll roller = (some pc, roll') →
      getKey pc.tokenId s.graphics = some tok →
      pc.config.checks = check :: rest →
      mismatchCond check.type roll' = true →
      handleRollResult s roll roller =
        (s, SysAction.mismatchPrompt check.type (roll'.rolledSkillName.getD []))) ∧
    (∀ (s : SysState) (eid tid : String) (pc : PendingCheck) (g : Graphic) (check : CheckSpec)
        (rest : List CheckSpec) (v : Int) (rt : Option String) (adv : Bool),
      (match getKey eid s.pendingChecksByChar with
        | some pc0 => some pc0
        | none => getKey eid s.pendingChecks) = some pc →
      getKey tid s.graphics = some g →
      pc.config.checks = check :: rest →
      resolveMismatch s eid tid true v rt adv =
        handleRollResult s (acceptRollData pc check v rt adv) pc.playerid ∧
      (acceptRollData pc check v rt adv).total = v ∧
      (acceptRollData pc check v rt adv).rolledSkillName = some check.type) ∧
    (∀ (pc : PendingCheck) (check : CheckSpec) (v : Int) (rt : Option String) (adv : Bool),
      ¬check.type.isEmpty = true → ¬normalizeType check.type = str "flat roll" →
      mismatchCond check.type (acceptRollData pc check v rt adv) = false) ∧
    (∀ (s : SysState) (eid tid : String) (pc : PendingCheck) (g : Graphic) (v : Int)
        (rt : Option String) (adv : Bool),
      (match getKey eid s.pendingChecksByChar with
        | some pc0 => some pc0
        | none => getKey eid s.pendingChecks) = some pc →
      getKey tid s.graphics = some g →
      resolveMismatch s eid tid false v rt adv =
        handleRollCheck s tid pc.checkIndex (pc.advantage.getD "normal") pc.playerid ∧
      (handleRollCheck s tid pc.checkIndex (pc.advantage.getD "normal") pc.playerid).1.graphics =
        s.graphics) := by
  refine ⟨?_, ?_, ?_, ?_⟩
  · intro s roll roller pc roll' tok check rest hfind htok hchecks hmis
    unfold handleRollResult
    rw [hfind]
    dsimp only
    rw [htok, hchecks]
    dsimp only
    rw [if_pos hmis]
  · intro s eid tid pc g check rest v rt adv hpc hg hchecks
    refine ⟨?_, rfl, rfl⟩
    unfold resolveMismatch
    rw [hpc, hg]
    dsimp only
    rw [hchecks]
    rfl
  · intro pc check v rt adv hne hflat
    have h1 : decide (normalizeType check.type = str "flat roll") = false := by
      simpa using hflat
    have h2 : check.type.isEmpty = false := by simpa using hne
    simp [mismatchCond, acceptRollData, isFlatRollOf, h1, h2]
  · intro s eid tid pc g v rt adv hpc hg
    refine ⟨?_, handleRollCheck_graphics s tid pc.checkIndex (pc.advantage.getD "normal") pc.playerid⟩
    unfold resolveMismatch
    rw [hpc, hg]
    rfl

/-- C7: for a manual advantage/disadvantage check the first value is
stored without resolving; with both values present the final value is the
max (advantage) or min (disadvantage); normal mode uses the single value;
success holds exactly when the final value reaches the DC.  The concrete
scenario rolls 8 then 14 with advantage against DC 12. -/
theorem claim_C7 :
    (∀ (s : SysState) (roll : Roll) (roller : String) (pc : PendingCheck) (roll' : Roll)
        (tok : Graphic) (check : CheckSpec) (rest : List CheckSpec),
      findCheck s roll roller = (some pc, roll') →
      getKey pc.tokenId s.graphics = some tok →
      pc.config.checks = check :: rest →
      mismatchCond check.type roll' = false →
      (match pc.characterId, roll'.characterid with
        | some e, some a => decide (e ≠ a)
        | _, _ => false) = false →
      roll'.isAdvantageRoll = false →
      ((pc.firstRoll = none →
          (pc.advantage = some "advantage" ∨ pc.advantage = some "disadvantage") →
          (handleRollResult s roll roller).2 = SysAction.waitingSecond roll'.total ∧
          (handleRollResult s roll roller).1.graphics = s.graphics ∧
          getKey pc.playerid (handleRollResult s roll roller).1.pendingChecks =
            some { pc with firstRoll := some roll'.total }) ∧
       (∀ f, pc.firstRoll = some f → pc.advantage = some "advantage" →
          (handleRollResult s roll roller).2 =
            SysAction.resolvedManual (max f roll'.total) (jsGE (max f roll'.total) check.dc)) ∧
       (∀ f, pc.firstRoll = some f → pc.advantage = some "disadvantage" →
          (handleRollResult s roll roller).2 =
            SysAction.resolvedManual (min f roll'.total) (jsGE (min f roll'.total) check.dc)) ∧
       (pc.advantage = some "normal" →
          (handleRollResult s roll roller).2 =
            SysAction.resolvedManual roll'.total (jsGE roll'.total check.dc)))) ∧
    (∀ a d : Int, jsGE a (some d) = true ↔ a ≥ d) ∧
    (handleRollResult sPipe { total := 8, characterid := some "c1" } "p1").2 =
      SysAction.waitingSecond 8 ∧
    (handleRollResult (handleRollResult sPipe { total := 8, characterid := some "c1" } "p1").1
        { total := 14, characterid := some "c1" } "p1").2 =
      SysAction.resolvedManual 14 true := by
  refine ⟨?_, fun a d => decide_eq_true_iff, by decide, by decide⟩
  intro s roll roller pc roll' tok check rest hfind htok hchecks hmis hcrit hadvroll
  unfold handleRollResult
  rw [hfind]
  dsimp only
  rw [htok, hchecks]
  dsimp only
  have hmis' : ¬mismatchCond check.type roll' = true := by rw [hmis]; simp
  have hcrit' : ¬(match pc.characterId, roll'.characterid with
      | some e, some a => decide (e ≠ a)
      | _, _ => false) = true := by rw [hcrit]; simp
  have hadv' : ¬roll'.isAdvantageRoll = true := by rw [hadvroll]; simp
  rw [if_neg hmis', if_neg hcrit', if_neg hadv']
  refine ⟨?_, ?_, ?_, ?_⟩
  · intro hfr hadv
    rw [if_pos ⟨hfr, hadv⟩]
    exact ⟨rfl, rfl, getKey_putKey_self _ _ _⟩
  · intro f hf hadv
    rw [if_neg (by simp [hf])]
    dsimp only
    rw [if_pos (by simp [hadv]), if_pos hadv, hf]
    rfl
  · intro f hf hadv
    rw [if_neg (by simp [hf])]
    dsimp only
    rw [if_pos (by simp [hadv]), if_neg (by simp [hadv]), hf]
    rfl
  · intro hadv
    rw [if_neg (by simp [hadv])]
    dsimp only
    rw [if_neg (by simp [hadv])]

/-- C10 witness: the concrete lock fixture (snapshot 3 of 5 uses, trap
text meanwhile reading 7 of 9) releases to a stored uses field of 2 of 5. -/
theorem claim_C10_witness :
    ((getKey "trapA" (allowMovement sLock "tok1").graphics).map fun g =>
        firstMatch matchUsesPat g.gmnotes) = some (some (2, 5)) :=
  claim_C10 sLock "tok1" ⟨"trapA", true, lockSnap⟩ heldTokG
    ⟨35, 35, 70, 70, canonicalNotes 7 9⟩ 7 9 (by decide) (by decide) (by decide) (by decide)
    rfl (by decide) (by decide)

end TrapSim
